import Mathlib

/-!
Verification of the Stagehand caching subsystem.

This development is a shallow embedding of the caching/validation engine of
the stagehand repository:

* `stagehand/cache.py` (`StagehandCache`): key derivation, in-memory and
  durable cache maps, TTL validity, hit statistics, clearing;
* `stagehand/handlers/observe_handler.py` (`ObserveHandler.observe`): the
  lookup/validate/fallback/store control flow around the cache;
* `stagehand/agent/agent.py` (`Agent.execute`): replay of a cached action
  sequence with abort-on-first-failure;
* `examples/cache_manager_tool.py` (`import_cache`): the import/merge tool.

Python reference semantics matter here: `set_cache` stores the *same* dict
object in the in-memory map (`self._memory_cache`) and the durable map
(`self.cache_data["caches"]`).  To be faithful to that aliasing, the model
uses an explicit heap (`List CacheItem` addressed by position) and the two
maps store heap addresses; mutating through one map is visible through the
other exactly when the addresses coincide, as in Python.

Time: `datetime.now()` is passed explicitly as an integer `now` (any fixed
time unit; the code compares datetimes with strict `<`, which the model
mirrors on `Int`).  An ISO timestamp field that is missing or unparseable is
modelled as `none` (both cases are treated identically by the code, which
catches the exception).
-/

namespace StagehandSpec

/-- `ObserveResult` from `stagehand/schemas.py`: the five data fields of an
observation result (pydantic model). -/
structure ObserveResult where
  selector : String
  description : String
  backend_node_id : Option Int
  method : Option String
  arguments : Option (List String)
  deriving DecidableEq

/-- One value of the `caches` dict in `stagehand/cache.py`: the entry shape
written by `set_cache`.  `created_at` is the parse of the stored ISO
timestamp (`none` when the field is missing or not parseable, the two cases
`_is_cache_valid` treats identically through its `except`).  `last_used` is
`none` when absent. -/
structure CacheItem where
  instruction : String
  page_url : String
  page_title : String
  result : ObserveResult
  created_at : Option Int
  last_used : Option Int
  hit_count : Int
  deriving DecidableEq

/-- Heap address: Python dict values are object references; cache items live
on an explicit heap and the maps store addresses into it. -/
abbrev Addr := Nat

/-- Association-list lookup, modelling `d[k]` / `k in d` on a Python dict
(keys are kept unique by `aset`). -/
def alookup {α : Type} : List (String × α) → String → Option α
  | [], _ => none
  | (k', v) :: rest, k => if k' = k then some v else alookup rest k

/-- Association-list insert/overwrite, modelling `d[k] = v`. -/
def aset {α : Type} : List (String × α) → String → α → List (String × α)
  | [], k, v => [(k, v)]
  | (k', v') :: rest, k, v =>
    if k' = k then (k, v) :: rest else (k', v') :: aset rest k v

/-- Association-list removal, modelling `del d[k]`. -/
def aerase {α : Type} : List (String × α) → String → List (String × α)
  | [], _ => []
  | (k', v') :: rest, k => if k' = k then rest else (k', v') :: aerase rest k

/-- Dereference a heap address. -/
def heapGet (h : List CacheItem) (a : Addr) : Option CacheItem := h[a]?

/-- Mutate the item at a heap address in place (no-op when out of range,
which the reachable states never produce). -/
def heapModify : List CacheItem → Addr → (CacheItem → CacheItem) → List CacheItem
  | [], _, _ => []
  | x :: rest, 0, f => f x :: rest
  | x :: rest, a + 1, f => x :: heapModify rest a f

/-- The state of one `StagehandCache` object: `heap` holds the live cache
item objects; `_memory_cache` models `self._memory_cache` and `caches` models
`self.cache_data["caches"]`, both as maps from key to heap address (Python
stores references, so the same address in both maps is one shared object).
`file` is the durable cache file: `some m` means the file holds the caches
map `m` (a deep snapshot, as `json.dump` serialises values), `none` means no
file has been written. -/
structure StagehandCache where
  heap : List CacheItem
  _memory_cache : List (String × Addr)
  caches : List (String × Addr)
  file : Option (List (String × CacheItem))
  deriving DecidableEq

/-- The deep snapshot of the durable map that `json.dump` would serialise:
each key with the current value of the item it references. -/
def cachesSnapshot (s : StagehandCache) : List (String × CacheItem) :=
  s.caches.filterMap (fun ka => (heapGet s.heap ka.2).map (fun it => (ka.1, it)))

/-- `StagehandCache._save_cache`: rewrite the whole cache file from the
current `cache_data` (the model keeps the `caches` portion, the part the
claims are about; the code also stamps `last_updated` and never raises). -/
def _save_cache (s : StagehandCache) : StagehandCache :=
  { s with file := some (cachesSnapshot s) }

/-- The fresh structure `_load_cache` returns when no cache file exists. -/
def initial_cache : StagehandCache :=
  { heap := [], _memory_cache := [], caches := [], file := none }

/-! ## Key derivation (`StagehandCache._generate_cache_key`) -/

/-- The ASCII whitespace characters removed by Python `str.strip()`
(space, tab, newline, carriage return, vertical tab, form feed; the model
covers the ASCII range of `strip`). -/
def pyWhitespace (c : Char) : Bool :=
  c.toNat == 32 || c.toNat == 9 || c.toNat == 10 ||
  c.toNat == 13 || c.toNat == 11 || c.toNat == 12

/-- Python `str.lower()` on one character (ASCII case folding, the range the
cache keys exercise): uppercase letters are shifted into lowercase, all
other characters are unchanged. -/
def pyLowerChar (c : Char) : Char :=
  if 65 ≤ c.toNat && c.toNat ≤ 90 then Char.ofNat (c.toNat + 32) else c

/-- Python `str.strip()`: drop leading and trailing whitespace. -/
def pyStrip (l : List Char) : List Char :=
  ((l.dropWhile pyWhitespace).reverse.dropWhile pyWhitespace).reverse

/-- `instruction.strip().lower()` as performed by `_generate_cache_key`. -/
def normalizeInstruction (s : String) : String :=
  String.mk ((pyStrip s.data).map pyLowerChar)

/-- Lowercase hexadecimal digit, as used by `json.dumps` for control
character escapes. -/
def hexDigit (n : Nat) : Char :=
  if n < 10 then Char.ofNat (48 + n) else Char.ofNat (87 + n)

/-- JSON string escaping of one character as produced by `json.dumps` with
`ensure_ascii=False`: quote, backslash and control characters are escaped,
everything else is emitted verbatim. -/
def jsonEscapeChar (c : Char) : List Char :=
  if c = '"' then ['\\', '"']
  else if c = '\\' then ['\\', '\\']
  else if c = '\n' then ['\\', 'n']
  else if c = '\t' then ['\\', 't']
  else if c = '\r' then ['\\', 'r']
  else if c.toNat = 8 then ['\\', 'b']
  else if c.toNat = 12 then ['\\', 'f']
  else if c.toNat < 32 then
    ['\\', 'u', '0', '0', hexDigit (c.toNat / 16), hexDigit (c.toNat % 16)]
  else [c]

/-- JSON string escaping of a whole string. -/
def jsonEscape (s : String) : String :=
  String.mk (s.data.flatMap jsonEscapeChar)

/-- `StagehandCache._generate_cache_key`: the composite key is the dict
`\x7b"instruction": instruction.strip().lower(), "page_url": page_url,
"page_title": page_title or ""\x7d`, serialised by
`json.dumps(..., sort_keys=True, ensure_ascii=False)` (keys in lexicographic
order `instruction`, `page_title`, `page_url`, separators `", "` and
`": "`).  The code then applies `hashlib.md5(...).hexdigest()` to this
serialisation; the digest is one fixed deterministic function of the
serialised string, so every key equality proved of the serialisation also
holds of the digest, and the model uses the serialisation itself as the
key. -/
def _generate_cache_key (instruction page_url : String)
    (page_title : Option String) : String :=
  "\x7b\"instruction\": \"" ++ jsonEscape (normalizeInstruction instruction) ++
  "\", \"page_title\": \"" ++ jsonEscape (page_title.getD "") ++
  "\", \"page_url\": \"" ++ jsonEscape page_url ++ "\"\x7d"

/-! ## Cache operations (`stagehand/cache.py`) -/

/-- `StagehandCache._is_cache_valid`: the entry is valid iff
`datetime.now() - created_at < timedelta(seconds=ttl)`; a missing or
unparseable `created_at` raises inside the `try` and yields `False`. -/
def _is_cache_valid (now : Int) (cached_item : CacheItem) (ttl : Int) : Bool :=
  match cached_item.created_at with
  | some created_at => decide (now - created_at < ttl)
  | none => false

/-- `StagehandCache._create_observe_result_from_cache`: rebuild an
`ObserveResult` from the five stored result fields. -/
def _create_observe_result_from_cache (cached_result : ObserveResult) :
    ObserveResult :=
  { selector := cached_result.selector
    description := cached_result.description
    method := cached_result.method
    arguments := cached_result.arguments
    backend_node_id := cached_result.backend_node_id }

/-- `StagehandCache._update_cache_stats`: when `hit` is set, bump
`hit_count` and stamp `last_used` on the entry found in `_memory_cache`, and
then again on the entry found in `caches`.  In Python both maps hold
references, so when both lookups reach the same object the increment lands
twice; the heap model reproduces that.  The file is not written here. -/
def _update_cache_stats (now : Int) (cache_key : String) (hit : Bool)
    (s : StagehandCache) : StagehandCache :=
  let bump := fun (it : CacheItem) =>
    { it with hit_count := it.hit_count + 1, last_used := some now }
  let heap1 :=
    match alookup s._memory_cache cache_key with
    | some a => if hit then heapModify s.heap a bump else s.heap
    | none => s.heap
  let heap2 :=
    match alookup s.caches cache_key with
    | some a => if hit then heapModify heap1 a bump else heap1
    | none => heap1
  { s with heap := heap2 }

/-- `StagehandCache.get_cached_result`: derive the key; on a TTL-valid entry
in the in-memory map, bump stats and return the rebuilt result; otherwise on
a TTL-valid entry in the durable map, load its reference into the in-memory
map, bump stats and return the rebuilt result; on a TTL-expired durable
entry, delete it from the durable map (only) and rewrite the file; otherwise
report a miss.  The `heapGet _ = none` fall-throughs correspond to dangling
addresses, which Python (storing the dict itself) cannot produce. -/
def get_cached_result (now : Int) (instruction page_url : String)
    (page_title : Option String) (ttl : Int) (s : StagehandCache) :
    Option ObserveResult × StagehandCache :=
  let cache_key := _generate_cache_key instruction page_url page_title
  let fileCheck : Option ObserveResult × StagehandCache :=
    match alookup s.caches cache_key with
    | some a =>
      match heapGet s.heap a with
      | some cached_item =>
        if _is_cache_valid now cached_item ttl then
          let s1 := { s with _memory_cache := aset s._memory_cache cache_key a }
          let s2 := _update_cache_stats now cache_key true s1
          (some (_create_observe_result_from_cache cached_item.result), s2)
        else
          let s1 := { s with caches := aerase s.caches cache_key }
          (none, _save_cache s1)
      | none => (none, s)
    | none => (none, s)
  match alookup s._memory_cache cache_key with
  | some a =>
    match heapGet s.heap a with
    | some cached_item =>
      if _is_cache_valid now cached_item ttl then
        let s1 := _update_cache_stats now cache_key true s
        (some (_create_observe_result_from_cache cached_item.result), s1)
      else fileCheck
    | none => fileCheck
  | none => fileCheck

/-- The entry dict built by `StagehandCache.set_cache`: the five result
fields, `created_at = last_used = now` and `hit_count = 0`. -/
def set_cache_item (now : Int) (instruction page_url : String)
    (result : ObserveResult) (page_title : Option String) : CacheItem :=
  { instruction := instruction
    page_url := page_url
    page_title := page_title.getD ""
    result := { selector := result.selector
                description := result.description
                method := result.method
                arguments := result.arguments
                backend_node_id := result.backend_node_id }
    created_at := some now
    last_used := some now
    hit_count := 0 }

/-- `StagehandCache.set_cache`: build the entry dict, store the same object
into both the in-memory and the durable map (one new heap cell, referenced
from both), then rewrite the file. -/
def set_cache (now : Int) (instruction page_url : String)
    (result : ObserveResult) (page_title : Option String)
    (s : StagehandCache) : StagehandCache :=
  let cache_key := _generate_cache_key instruction page_url page_title
  let cache_item := set_cache_item now instruction page_url result page_title
  let a := s.heap.length
  let s1 := { s with
    heap := s.heap ++ [cache_item]
    _memory_cache := aset s._memory_cache cache_key a
    caches := aset s.caches cache_key a }
  _save_cache s1

/-- `StagehandCache.validate_cached_xpath`: strip every `xpath=` prefix,
resolve the locator on the live page and count the matches; valid iff the
count is positive, and any resolution error (`resolve` returning `none`)
yields `False`.  The browser round-trip is the oracle `resolve`. -/
def validate_cached_xpath (resolve : String → Option Nat) (xpath : String) :
    Bool :=
  match resolve (xpath.replace "xpath=" "") with
  | some count => decide (count > 0)
  | none => false

/-- `StagehandCache.clear_cache`: with `expired_only` remove every durable
entry that fails `_is_cache_valid` (and its in-memory reference when
present), otherwise remove everything; rewrite the file when at least one
entry was removed, and return the number removed. -/
def clear_cache (now : Int) (expired_only : Bool) (ttl : Int)
    (s : StagehandCache) : Nat × StagehandCache :=
  if expired_only then
    let expired_keys := s.caches.filterMap (fun ka =>
      match heapGet s.heap ka.2 with
      | some it => if _is_cache_valid now it ttl then none else some ka.1
      | none => none)
    let s1 := { s with
      caches := expired_keys.foldl aerase s.caches
      _memory_cache := expired_keys.foldl aerase s._memory_cache }
    let cleared_count := expired_keys.length
    if cleared_count > 0 then (cleared_count, _save_cache s1)
    else (cleared_count, s1)
  else
    let cleared_count := s.caches.length
    let s1 := { s with caches := [], _memory_cache := [] }
    if cleared_count > 0 then (cleared_count, _save_cache s1)
    else (cleared_count, s1)

/-! ## Observe handler (`stagehand/handlers/observe_handler.py`) -/

/-- The fallback instruction `ObserveHandler.observe` substitutes when the
caller passes no instruction (or an empty one). -/
def defaultObserveInstruction : String :=
  "Find elements that can be used for any future actions in the page. " ++
  "These may be navigation links, related pages, section/subsection links, " ++
  "buttons, or other interactive elements. Be comprehensive: if there are " ++
  "multiple elements that may be relevant for future actions, return all of them."

/-- `ObserveHandler.observe`, the caching control flow (lines 54-168 of
`observe_handler.py`).  The browser and the LLM are oracles: `resolve`
answers `validate_cached_xpath` (match count of a locator, `none` for a
resolution error) and `fresh_results` is what the accessibility-tree +
inference + `_add_selectors_to_elements` pipeline would produce on this
page.  With caching enabled, a TTL-valid cached result whose selector still
resolves is returned alone; otherwise the fresh results are computed, the
first of them (when any) is written to the cache, and all of them are
returned.  Metrics, logging and overlay drawing carry no cache state and
are omitted. -/
def observe (now : Int) (instruction? : Option String) (page_url : String)
    (page_title : Option String) (use_cache : Bool) (cache_ttl : Int)
    (resolve : String → Option Nat) (fresh_results : List ObserveResult)
    (s : StagehandCache) : List ObserveResult × StagehandCache :=
  let instruction :=
    match instruction? with
    | some i => if i = "" then defaultObserveInstruction else i
    | none => defaultObserveInstruction
  let freshPath := fun (s1 : StagehandCache) =>
    let s2 :=
      match fresh_results with
      | first_result :: _ =>
        if use_cache then
          set_cache now instruction page_url first_result page_title s1
        else s1
      | [] => s1
    (fresh_results, s2)
  if use_cache then
    match get_cached_result now instruction page_url page_title cache_ttl s with
    | (some cached_result, s1) =>
      if validate_cached_xpath resolve cached_result.selector then
        ([cached_result], s1)
      else freshPath s1
    | (none, s1) => freshPath s1
  else freshPath s

/-! ## Cache import tool (`examples/cache_manager_tool.py`) -/

/-- The merge loop of `import_cache`: for each imported key/value pair in
order, when the key is absent from the local durable map, add the value
(verbatim, new heap cell) and count it; keys already present are left
untouched. -/
def merge_imported (imported : List (String × CacheItem))
    (s : StagehandCache) : Nat × StagehandCache :=
  match imported with
  | [] => (0, s)
  | (key, value) :: rest =>
    if (alookup s.caches key).isSome then merge_imported rest s
    else
      let s1 := { s with
        heap := s.heap ++ [value]
        caches := aset s.caches key s.heap.length }
      let (merged_count, s2) := merge_imported rest s1
      (merged_count + 1, s2)

/-- `import_cache`: `imported?` is the parse of the import file —
`none` when the file is missing or `json.load` fails (the `except` catches
it, nothing is merged and nothing is saved), `some caches` the contents of
its `caches` field (defaulting to the empty dict).  On a successful parse
the entries are merged into the local durable map and the file is
rewritten; the in-memory map is untouched.  Returns the merged count. -/
def import_cache (imported? : Option (List (String × CacheItem)))
    (s : StagehandCache) : Nat × StagehandCache :=
  match imported? with
  | none => (0, s)
  | some imported =>
    let (merged_count, s1) := merge_imported imported s
    (merged_count, _save_cache s1)

/-! ## Agent cached-action replay (`stagehand/agent/agent.py`) -/

/-- Abstraction of the `AgentAction` objects rebuilt by
`_create_agent_action_from_dict`; the replay loop only forwards them to
`CUAHandler.perform_action` and logs their type. -/
structure AgentAction where
  action_type : String
  deriving DecidableEq

/-- The result dict of `CUAHandler.perform_action`: the loop reads
`action_result.get("success", True)` (so an absent key counts as success)
and `action_result.get("error", ...)`. -/
structure ActionResult where
  success : Option Bool
  error : Option String
  deriving DecidableEq

/-- Outcome of replaying a cached action sequence. -/
inductive ReplayOutcome where
  | allSucceeded : ReplayOutcome
  | failedAt : Nat → String → ReplayOutcome
  deriving DecidableEq

/-- The replay loop of `Agent.execute` (lines 245-269): execute the cached
actions in order through the executor oracle `perform` (indexed by position,
standing for the evolving page); after an action whose result lacks
`success: False`, continue (with a 500 ms settling delay between actions,
which carries no state here); on the first failing action raise — which
aborts the remaining sequence — carrying the error text.  Returns the list
of indices actually attempted together with the outcome; `i` is the index
of the next action. -/
def replay_cached_actions (perform : Nat → ActionResult) :
    Nat → List AgentAction → List Nat × ReplayOutcome
  | _, [] => ([], .allSucceeded)
  | i, _ :: rest =>
    let action_result := perform i
    if (action_result.success.getD true) = false then
      ([i], .failedAt i
        ("缓存操作执行失败: " ++ action_result.error.getD "未知错误"))
    else
      let (attempted, outcome) := replay_cached_actions perform (i + 1) rest
      (i :: attempted, outcome)

/-- The cached branch of `Agent.execute`: replay the cached actions; when
all succeed return the cached `AgentResult` (first component `true`), and
when one fails the raised exception is caught, the cache result is
discarded and execution falls through to the fresh LLM call (first
component `false`).  The second component is the list of attempted
indices. -/
def agent_execute_cached (actions : List AgentAction)
    (perform : Nat → ActionResult) : Bool × List Nat :=
  let (attempted, outcome) := replay_cached_actions perform 0 actions
  match outcome with
  | .allSucceeded => (true, attempted)
  | .failedAt _ _ => (false, attempted)

/-! ## Theorems -/

/-- Sample result fields used by concrete witnesses. -/
def resW : ObserveResult :=
  { selector := "xpath=//input"
    description := "username field"
    backend_node_id := some 5
    method := some "click"
    arguments := some ["a"] }

/-- Sample cache entry used by concrete witnesses. -/
def itemW : CacheItem :=
  { instruction := "i"
    page_url := "u"
    page_title := ""
    result := resW
    created_at := some 100
    last_used := some 100
    hit_count := 0 }

/-- C2: `_is_cache_valid` returns true iff `now - created_at < ttl` (strict
inequality, so an entry created at `T` with TTL `S` is fresh at `T+S-1` and
not fresh at `T+S` or `T+S+1`), and an entry whose `created_at` is missing
or unparseable is never fresh. -/
theorem claim_C2_freshness :
    (∀ (it : CacheItem) (now ttl created : Int), it.created_at = some created →
      (_is_cache_valid now it ttl = true ↔ now - created < ttl)) ∧
    (∀ (it : CacheItem) (now ttl : Int), it.created_at = none →
      _is_cache_valid now it ttl = false) ∧
    (∀ (it : CacheItem) (T S : Int), it.created_at = some T →
      _is_cache_valid (T + S - 1) it S = true ∧
      _is_cache_valid (T + S) it S = false ∧
      _is_cache_valid (T + S + 1) it S = false) := by
  refine ⟨?_, ?_, ?_⟩
  · intro it now ttl created h
    simp [_is_cache_valid, h]
  · intro it now ttl h
    simp [_is_cache_valid, h]
  · intro it T S h
    simp only [_is_cache_valid, h, decide_eq_true_eq, decide_eq_false_iff_not]
    omega

/-- Witness for C2 at a concrete entry and concrete times. -/
theorem claim_C2_freshness_witness :
    itemW.created_at = some 100 ∧
    (_is_cache_valid 150 itemW 60 = true ↔ (150 : Int) - 100 < 60) ∧
    _is_cache_valid (100 + 60 - 1) itemW 60 = true ∧
    _is_cache_valid (100 + 60) itemW 60 = false :=
  ⟨rfl, claim_C2_freshness.1 itemW 150 60 100 rfl,
    (claim_C2_freshness.2.2 itemW 100 60 rfl).1,
    (claim_C2_freshness.2.2 itemW 100 60 rfl).2.1⟩

/-- Unfolding of the replay loop over a successful head action. -/
theorem replay_cons_succ (perform : Nat → ActionResult) (k : Nat)
    (a : AgentAction) (rest : List AgentAction)
    (h : ((perform k).success.getD true) = true) :
    replay_cached_actions perform k (a :: rest) =
      (k :: (replay_cached_actions perform (k + 1) rest).1,
        (replay_cached_actions perform (k + 1) rest).2) := by
  cases hrep : replay_cached_actions perform (k + 1) rest with
  | mk tr out => simp [replay_cached_actions, h, hrep]

/-- Unfolding of the replay loop over a failing head action. -/
theorem replay_cons_fail (perform : Nat → ActionResult) (k : Nat)
    (a : AgentAction) (rest : List AgentAction)
    (h : ((perform k).success.getD true) = false) :
    replay_cached_actions perform k (a :: rest) =
      ([k], ReplayOutcome.failedAt k
        ("缓存操作执行失败: " ++ (perform k).error.getD "未知错误")) := by
  simp [replay_cached_actions, h]

/-- Shifting a range under addition. -/
theorem range_map_add (k n : Nat) :
    (List.range (n + 1)).map (k + ·) =
      k :: (List.range n).map (k + 1 + ·) := by
  rw [List.range_succ_eq_map]
  simp only [List.map_cons, Nat.add_zero, List.map_map, List.cons.injEq,
    true_and]
  refine List.map_congr_left ?_
  intro x _
  simp only [Function.comp_apply]
  omega

/-- The replay loop, started at index `k`, attempts exactly the actions up
to the first failure and reports that failure. -/
theorem replay_aux (perform : Nat → ActionResult) (acts : List AgentAction) :
    ∀ (k i : Nat), i < acts.length →
    (∀ j, j < i → ((perform (k + j)).success.getD true) = true) →
    ((perform (k + i)).success.getD true) = false →
    (replay_cached_actions perform k acts).1 =
      (List.range (i + 1)).map (k + ·) ∧
    ∃ reason, (replay_cached_actions perform k acts).2 =
      ReplayOutcome.failedAt (k + i) reason := by
  induction acts with
  | nil => intro k i hi; simp at hi
  | cons a rest ih =>
    intro k i hi hok hfail
    match i with
    | 0 =>
      simp only [Nat.add_zero] at hfail
      rw [replay_cons_fail perform k a rest hfail]
      refine ⟨by simp [List.range_succ], ⟨_, rfl⟩⟩
    | j + 1 =>
      have h0 : ((perform k).success.getD true) = true := by
        have := hok 0 (Nat.succ_pos j)
        simpa using this
      have hrec := ih (k + 1) j (by simpa using hi)
        (fun j' hj' => by
          have := hok (j' + 1) (Nat.succ_lt_succ hj')
          have harith : k + (j' + 1) = k + 1 + j' := by omega
          rwa [harith] at this)
        (by
          have harith : k + (j + 1) = k + 1 + j := by omega
          rwa [harith] at hfail)
      obtain ⟨htr, reason, hout⟩ := hrec
      rw [replay_cons_succ perform k a rest h0]
      refine ⟨?_, reason, ?_⟩
      · rw [htr, range_map_add k (j + 1)]
      · rw [hout]
        congr 1
        omega

/-- C5: when the action at index `i` of a replayed cached sequence fails
(and all earlier ones succeed), exactly the actions `0..i` are attempted —
no action with a larger index is executed — the outcome is `failedAt i`
with the reported reason, and `Agent.execute` abandons the cached branch
and falls back to the fresh LLM computation. -/
theorem claim_C5_replay_aborts (actions : List AgentAction)
    (perform : Nat → ActionResult) (i : Nat)
    (hi : i < actions.length)
    (hok : ∀ j, j < i → ((perform j).success.getD true) = true)
    (hfail : ((perform i).success.getD true) = false) :
    (replay_cached_actions perform 0 actions).1 = List.range (i + 1) ∧
    (∃ reason, (replay_cached_actions perform 0 actions).2 =
      ReplayOutcome.failedAt i reason) ∧
    (agent_execute_cached actions perform).1 = false := by
  have h := replay_aux perform actions 0 i hi
    (fun j hj => by simpa using hok j hj) (by simpa using hfail)
  obtain ⟨htr, reason, hout⟩ := h
  simp only [Nat.zero_add] at htr hout
  refine ⟨by simpa using htr, ⟨reason, hout⟩, ?_⟩
  simp [agent_execute_cached, hout]

/-- Witness for C5: a 3-action cached sequence whose second action fails is
attempted only up to index 1 and falls back to fresh computation. -/
theorem claim_C5_replay_aborts_witness :
    (1 < ([⟨"click"⟩, ⟨"type"⟩, ⟨"click"⟩] : List AgentAction).length) ∧
    (replay_cached_actions
        (fun i => if i = 1 then ⟨some false, some "element missing"⟩
                  else ⟨none, none⟩)
        0 [⟨"click"⟩, ⟨"type"⟩, ⟨"click"⟩]).1 = List.range 2 ∧
    (agent_execute_cached [⟨"click"⟩, ⟨"type"⟩, ⟨"click"⟩]
        (fun i => if i = 1 then ⟨some false, some "element missing"⟩
                  else ⟨none, none⟩)).1 = false := by
  have h := claim_C5_replay_aborts [⟨"click"⟩, ⟨"type"⟩, ⟨"click"⟩]
    (fun i => if i = 1 then ⟨some false, some "element missing"⟩
              else ⟨none, none⟩)
    1 (by decide)
    (by intro j hj; interval_cases j; decide)
    (by decide)
  exact ⟨by decide, h.1, h.2.2⟩

/-- Packing a scalar value below the surrogate range round-trips through
`Char.ofNat`. -/
theorem char_toNat_ofNat {n : Nat} (h : n < 55296) :
    (Char.ofNat n).toNat = n := by
  have hv : n.isValidChar := Or.inl h
  simp only [Char.ofNat, dif_pos hv]
  rfl

/-- ASCII case folding maps no character into or out of the whitespace
class. -/
theorem pyWhitespace_pyLowerChar (c : Char) :
    pyWhitespace (pyLowerChar c) = pyWhitespace c := by
  unfold pyLowerChar
  split
  case isTrue h =>
    simp only [Bool.and_eq_true, decide_eq_true_eq] at h
    have ht : (Char.ofNat (c.toNat + 32)).toNat = c.toNat + 32 :=
      char_toNat_ofNat (by omega)
    have hR : pyWhitespace c = false := by
      simp only [pyWhitespace, Bool.or_eq_false_iff, beq_eq_false_iff_ne,
        ne_eq]
      omega
    have hL : pyWhitespace (Char.ofNat (c.toNat + 32)) = false := by
      simp only [pyWhitespace, ht, Bool.or_eq_false_iff, beq_eq_false_iff_ne,
        ne_eq]
      omega
    rw [hL, hR]
  case isFalse h => rfl

/-- Stripping ignores whitespace padding on both ends. -/
theorem pyStrip_pad (i ws1 ws2 : List Char)
    (h1 : ∀ c ∈ ws1, pyWhitespace c = true)
    (h2 : ∀ c ∈ ws2, pyWhitespace c = true) :
    pyStrip (ws1 ++ i ++ ws2) = pyStrip i := by
  unfold pyStrip
  rw [List.append_assoc, List.dropWhile_append_of_pos h1,
    List.dropWhile_append]
  by_cases hcase : (i.dropWhile pyWhitespace).isEmpty
  · rw [if_pos hcase]
    have hws2 : ws2.dropWhile pyWhitespace = [] :=
      List.dropWhile_eq_nil_iff.mpr h2
    have hi : i.dropWhile pyWhitespace = [] := by
      simpa [List.isEmpty_iff] using hcase
    rw [hws2, hi]
  · rw [if_neg hcase, List.reverse_append,
      List.dropWhile_append_of_pos
        (fun c hc => h2 c (List.mem_reverse.mp hc))]

/-- Stripping commutes with case folding. -/
theorem pyStrip_map_lower (l : List Char) :
    pyStrip (l.map pyLowerChar) = (pyStrip l).map pyLowerChar := by
  have hcomp : (pyWhitespace ∘ pyLowerChar) = pyWhitespace :=
    funext pyWhitespace_pyLowerChar
  have hdw : ∀ (m : List Char),
      (m.map pyLowerChar).dropWhile pyWhitespace
        = (m.dropWhile pyWhitespace).map pyLowerChar := by
    intro m
    rw [List.dropWhile_map, hcomp]
  unfold pyStrip
  rw [hdw, ← List.map_reverse, hdw, List.map_reverse]

/-- Instruction normalization absorbs whitespace padding. -/
theorem normalize_pad (i ws1 ws2 : String)
    (h1 : ∀ c ∈ ws1.data, pyWhitespace c = true)
    (h2 : ∀ c ∈ ws2.data, pyWhitespace c = true) :
    normalizeInstruction (ws1 ++ i ++ ws2) = normalizeInstruction i := by
  unfold normalizeInstruction
  rw [String.data_append, String.data_append,
    pyStrip_pad i.data ws1.data ws2.data h1 h2]

/-- Instruction normalization identifies strings equal up to letter case. -/
theorem normalize_lower_eq (i1 i2 : String)
    (h : i1.data.map pyLowerChar = i2.data.map pyLowerChar) :
    normalizeInstruction i1 = normalizeInstruction i2 := by
  unfold normalizeInstruction
  congr 1
  calc (pyStrip i1.data).map pyLowerChar
      = pyStrip (i1.data.map pyLowerChar) := (pyStrip_map_lower i1.data).symm
    _ = pyStrip (i2.data.map pyLowerChar) := by rw [h]
    _ = (pyStrip i2.data).map pyLowerChar := pyStrip_map_lower i2.data

/-- C4: key derivation is a pure deterministic function of the normalized
triple — equal inputs give equal keys, instructions differing only in
leading/trailing whitespace or only in letter case give equal keys, and an
absent title and an empty title give equal keys. -/
theorem claim_C4_key_normalization :
    (∀ (i u : String) (t : Option String),
      _generate_cache_key i u t = _generate_cache_key i u t) ∧
    (∀ (i ws1 ws2 u : String) (t : Option String),
      (∀ c ∈ ws1.data, pyWhitespace c = true) →
      (∀ c ∈ ws2.data, pyWhitespace c = true) →
      _generate_cache_key (ws1 ++ i ++ ws2) u t =
        _generate_cache_key i u t) ∧
    (∀ (i1 i2 u : String) (t : Option String),
      i1.data.map pyLowerChar = i2.data.map pyLowerChar →
      _generate_cache_key i1 u t = _generate_cache_key i2 u t) ∧
    (∀ (i u : String),
      _generate_cache_key i u none = _generate_cache_key i u (some "")) := by
  refine ⟨fun i u t => rfl, ?_, ?_, fun i u => rfl⟩
  · intro i ws1 ws2 u t h1 h2
    unfold _generate_cache_key
    rw [normalize_pad i ws1 ws2 h1 h2]
  · intro i1 i2 u t h
    unfold _generate_cache_key
    rw [normalize_lower_eq i1 i2 h]

/-- Witness for C4 on concrete instructions: whitespace padding and case
changes leave the key unchanged. -/
theorem claim_C4_key_normalization_witness :
    (∀ c ∈ ("  " : String).data, pyWhitespace c = true) ∧
    _generate_cache_key ("  " ++ "Find It" ++ " ") "u" none =
      _generate_cache_key "Find It" "u" none ∧
    ("FIND iT" : String).data.map pyLowerChar =
      ("find it" : String).data.map pyLowerChar ∧
    _generate_cache_key "FIND iT" "u" none =
      _generate_cache_key "find it" "u" none :=
  ⟨by decide,
    claim_C4_key_normalization.2.1 "Find It" "  " " " "u" none
      (by decide) (by decide),
    by decide,
    claim_C4_key_normalization.2.2.1 "FIND iT" "find it" "u" none (by decide)⟩

/-! ### Map and heap lemmas -/

theorem alookup_aset_self {α : Type} (m : List (String × α)) (k : String)
    (v : α) : alookup (aset m k v) k = some v := by
  induction m with
  | nil => simp [aset, alookup]
  | cons kv rest ih =>
    obtain ⟨k0, v0⟩ := kv
    by_cases h : k0 = k
    · simp [aset, alookup, h]
    · simp [aset, alookup, h, ih]

theorem alookup_aset_ne {α : Type} (m : List (String × α)) (k k' : String)
    (v : α) (h : k' ≠ k) : alookup (aset m k v) k' = alookup m k' := by
  have hne : k ≠ k' := fun hh => h hh.symm
  induction m with
  | nil => simp [aset, alookup, hne]
  | cons kv rest ih =>
    obtain ⟨k0, v0⟩ := kv
    by_cases h0 : k0 = k
    · subst h0
      simp [aset, alookup, if_neg hne]
    · simp [aset, alookup, h0, ih]

theorem heapGet_append_length (h : List CacheItem) (x : CacheItem) :
    heapGet (h ++ [x]) h.length = some x := by
  simp [heapGet]

theorem heapGet_append_lt (h l : List CacheItem) (a : Addr)
    (ha : a < h.length) : heapGet (h ++ l) a = heapGet h a := by
  simp [heapGet, List.getElem?_append_left ha]

theorem heapModify_length (h : List CacheItem) (a : Addr)
    (f : CacheItem → CacheItem) : (heapModify h a f).length = h.length := by
  induction h generalizing a with
  | nil => rfl
  | cons x rest ih =>
    match a with
    | 0 => rfl
    | a + 1 => simp [heapModify, ih]

theorem heapGet_heapModify (h : List CacheItem) (a b : Addr)
    (f : CacheItem → CacheItem) :
    heapGet (heapModify h a f) b =
      if a = b then (heapGet h b).map f else heapGet h b := by
  induction h generalizing a b with
  | nil => simp [heapModify, heapGet]
  | cons x rest ih =>
    match a, b with
    | 0, 0 => simp [heapModify, heapGet]
    | 0, b + 1 => simp [heapModify, heapGet]
    | a + 1, 0 => simp [heapModify, heapGet]
    | a + 1, b + 1 =>
      have ih' := ih a b
      simp only [heapGet] at ih'
      simp only [heapModify, heapGet, List.getElem?_cons_succ, ih',
        Nat.add_right_cancel_iff]

/-! ### Projections of the cache operations -/

theorem set_cache_heap (now : Int) (i u : String) (res : ObserveResult)
    (t : Option String) (s : StagehandCache) :
    (set_cache now i u res t s).heap =
      s.heap ++ [set_cache_item now i u res t] := rfl

theorem set_cache_mem (now : Int) (i u : String) (res : ObserveResult)
    (t : Option String) (s : StagehandCache) :
    (set_cache now i u res t s)._memory_cache =
      aset s._memory_cache (_generate_cache_key i u t) s.heap.length := rfl

theorem set_cache_caches (now : Int) (i u : String) (res : ObserveResult)
    (t : Option String) (s : StagehandCache) :
    (set_cache now i u res t s).caches =
      aset s.caches (_generate_cache_key i u t) s.heap.length := rfl

theorem update_stats_mem (now : Int) (k : String) (hit : Bool)
    (s : StagehandCache) :
    (_update_cache_stats now k hit s)._memory_cache = s._memory_cache := rfl

theorem update_stats_caches (now : Int) (k : String) (hit : Bool)
    (s : StagehandCache) :
    (_update_cache_stats now k hit s).caches = s.caches := rfl

theorem update_stats_file (now : Int) (k : String) (hit : Bool)
    (s : StagehandCache) :
    (_update_cache_stats now k hit s).file = s.file := rfl

theorem update_stats_heap_length (now : Int) (k : String) (hit : Bool)
    (s : StagehandCache) :
    (_update_cache_stats now k hit s).heap.length = s.heap.length := by
  unfold _update_cache_stats
  cases h1 : alookup s._memory_cache k <;>
    cases h2 : alookup s.caches k <;>
    cases hit <;>
    simp [h1, h2, heapModify_length]

/-- The entry written by `set_cache` is TTL-valid whenever the elapsed time
is below the TTL. -/
theorem is_valid_set_item (now d ttl : Int) (i u : String)
    (res : ObserveResult) (t : Option String) (hd : d < ttl) :
    _is_cache_valid (now + d) (set_cache_item now i u res t) ttl = true := by
  simp only [_is_cache_valid, set_cache_item, decide_eq_true_eq]
  omega

/-- Rebuilding an `ObserveResult` from the fields stored by `set_cache`
returns the stored result. -/
theorem create_set_item (now : Int) (i u : String) (res : ObserveResult)
    (t : Option String) :
    _create_observe_result_from_cache (set_cache_item now i u res t).result
      = res := rfl

/-- A lookup immediately after a store (within TTL) takes the in-memory hit
path: it returns the stored result and only updates the hit statistics. -/
theorem get_after_set (s : StagehandCache) (now d : Int) (i u : String)
    (t : Option String) (res : ObserveResult) (ttl : Int) (hd : d < ttl) :
    get_cached_result (now + d) i u t ttl (set_cache now i u res t s) =
      (some res,
        _update_cache_stats (now + d) (_generate_cache_key i u t) true
          (set_cache now i u res t s)) := by
  simp only [get_cached_result, set_cache_mem, alookup_aset_self,
    set_cache_heap, heapGet_append_length,
    is_valid_set_item now d ttl i u res t hd, if_true, create_set_item]

/-- C3: storing a result and looking it up with the same triple before TTL
expiry returns an `ObserveResult` whose selector, description, method,
arguments and backend node id all equal those of the stored result. -/
theorem claim_C3_roundtrip (s : StagehandCache) (now d : Int)
    (i u : String) (t : Option String) (res : ObserveResult) (ttl : Int)
    (hd : d < ttl) :
    ∃ got,
      (get_cached_result (now + d) i u t ttl
        (set_cache now i u res t s)).1 = some got ∧
      got.selector = res.selector ∧ got.description = res.description ∧
      got.method = res.method ∧ got.arguments = res.arguments ∧
      got.backend_node_id = res.backend_node_id := by
  refine ⟨res, ?_, rfl, rfl, rfl, rfl, rfl⟩
  rw [get_after_set s now d i u t res ttl hd]

/-- Witness for C3 at a concrete store followed by an immediate lookup. -/
theorem claim_C3_roundtrip_witness :
    ((0 : Int) < 3600) ∧
    ∃ got,
      (get_cached_result (0 + 0) "i" "u" none 3600
        (set_cache 0 "i" "u" resW none initial_cache)).1 = some got ∧
      got.selector = resW.selector ∧ got.description = resW.description ∧
      got.method = resW.method ∧ got.arguments = resW.arguments ∧
      got.backend_node_id = resW.backend_node_id :=
  ⟨by decide,
    claim_C3_roundtrip initial_cache 0 0 "i" "u" none resW 3600 (by decide)⟩

/-- The observe flow on a TTL-valid cached entry whose selector still
resolves: the cached result is returned alone and only the hit statistics
change. -/
theorem observe_hit_path (s : StagehandCache) (now d : Int) (i u : String)
    (t : Option String) (res : ObserveResult) (ttl : Int)
    (resolve : String → Option Nat) (fresh : List ObserveResult)
    (hi : i ≠ "") (hd : d < ttl)
    (hv : validate_cached_xpath resolve res.selector = true) :
    observe (now + d) (some i) u t true ttl resolve fresh
        (set_cache now i u res t s) =
      ([res],
        _update_cache_stats (now + d) (_generate_cache_key i u t) true
          (set_cache now i u res t s)) := by
  simp [observe, if_neg hi, get_after_set s now d i u t res ttl hd, hv]

/-- C10: on a valid cached hit `observe` returns exactly one result (the
cached one) whatever the fresh pipeline would have produced; and on a miss
with caching enabled, all fresh results are returned but only the first is
written to the cache. -/
theorem claim_C10_single_result_first_cached :
    (∀ (s : StagehandCache) (now d : Int) (i u : String) (t : Option String)
        (res : ObserveResult) (ttl : Int) (resolve : String → Option Nat)
        (fresh : List ObserveResult), i ≠ "" → d < ttl →
      validate_cached_xpath resolve res.selector = true →
      (observe (now + d) (some i) u t true ttl resolve fresh
          (set_cache now i u res t s)).1 = [res]) ∧
    (∀ (s : StagehandCache) (now : Int) (i u : String) (t : Option String)
        (ttl : Int) (resolve : String → Option Nat) (f : ObserveResult)
        (rest : List ObserveResult), i ≠ "" →
      alookup s._memory_cache (_generate_cache_key i u t) = none →
      alookup s.caches (_generate_cache_key i u t) = none →
      (observe now (some i) u t true ttl resolve (f :: rest) s).1 =
        f :: rest ∧
      alookup (observe now (some i) u t true ttl resolve
            (f :: rest) s).2.caches (_generate_cache_key i u t) =
          some s.heap.length ∧
      heapGet (observe now (some i) u t true ttl resolve
            (f :: rest) s).2.heap s.heap.length =
          some (set_cache_item now i u f t)) := by
  constructor
  · intro s now d i u t res ttl resolve fresh hi hd hv
    rw [observe_hit_path s now d i u t res ttl resolve fresh hi hd hv]
  · intro s now i u t ttl resolve f rest hi hm hc
    have hmiss : get_cached_result now i u t ttl s = (none, s) := by
      simp only [get_cached_result, hm, hc]
    simp only [observe, if_neg hi, if_true, hmiss]
    refine ⟨by trivial, ?_, ?_⟩
    · rw [set_cache_caches]
      exact alookup_aset_self s.caches (_generate_cache_key i u t)
        s.heap.length
    · rw [set_cache_heap]
      exact heapGet_append_length s.heap (set_cache_item now i u f t)

/-- Witness for C10: a concrete hit returns one result; a concrete fresh
computation with two results caches only the first. -/
theorem claim_C10_single_result_first_cached_witness :
    (observe (0 + 5) (some "i") "u" none true 100 (fun _ => some 1)
        [resW, resW] (set_cache 0 "i" "u" resW none initial_cache)).1 =
      [resW] ∧
    heapGet (observe 0 (some "i") "u" none true 100 (fun _ => some 1)
        [resW, ⟨"x", "other", none, none, none⟩]
        initial_cache).2.heap 0 =
      some (set_cache_item 0 "i" "u" resW none) :=
  ⟨claim_C10_single_result_first_cached.1 initial_cache 0 5 "i" "u" none
      resW 100 (fun _ => some 1) [resW, resW] (by decide) (by decide)
      (by decide),
    (claim_C10_single_result_first_cached.2 initial_cache 0 "i" "u" none
      100 (fun _ => some 1) resW [⟨"x", "other", none, none, none⟩]
      (by decide) rfl rfl).2.2⟩

/-- C1 counterexample: a concrete TTL-valid entry whose selector no longer
resolves on the live page (the resolver reports zero matches).  The observe
flow falls back to fresh computation but the entry is not removed: it is
still present in both the durable map and the in-memory map afterwards,
contradicting the claimed eviction from both stores. -/
theorem claim_C1_no_eviction_counterexample :
    (validate_cached_xpath (fun _ => some 0) resW.selector = false) ∧
    ((alookup (observe 5 (some "i") "u" none true 100 (fun _ => some 0) []
        (set_cache 0 "i" "u" resW none initial_cache)).2.caches
        (_generate_cache_key "i" "u" none)).isSome = true) ∧
    ((alookup (observe 5 (some "i") "u" none true 100 (fun _ => some 0) []
        (set_cache 0 "i" "u" resW none initial_cache)).2._memory_cache
        (_generate_cache_key "i" "u" none)).isSome = true) := by
  decide

/-- C1 amended: a TTL-valid entry whose selector no longer resolves is
treated as a miss — `observe` falls back to the fresh computation and
returns its results — but the entry is not evicted from either store: its
key remains in both the in-memory and the durable map (overwritten in place
when the fresh computation produced results, unchanged when it produced
none). -/
theorem claim_C1_invalid_selector_miss_no_eviction (s : StagehandCache)
    (now d : Int) (i u : String) (t : Option String) (res : ObserveResult)
    (ttl : Int) (resolve : String → Option Nat)
    (fresh : List ObserveResult) (hi : i ≠ "") (hd : d < ttl)
    (hv : validate_cached_xpath resolve res.selector = false) :
    (observe (now + d) (some i) u t true ttl resolve fresh
        (set_cache now i u res t s)).1 = fresh ∧
    (alookup (observe (now + d) (some i) u t true ttl resolve fresh
        (set_cache now i u res t s)).2.caches
        (_generate_cache_key i u t)).isSome = true ∧
    (alookup (observe (now + d) (some i) u t true ttl resolve fresh
        (set_cache now i u res t s)).2._memory_cache
        (_generate_cache_key i u t)).isSome = true := by
  cases fresh with
  | nil =>
    simp only [observe, if_neg hi, if_true,
      get_after_set s now d i u t res ttl hd, hv, Bool.false_eq_true,
      if_false]
    refine ⟨by trivial, ?_, ?_⟩
    · rw [update_stats_caches, set_cache_caches, alookup_aset_self]
      rfl
    · rw [update_stats_mem, set_cache_mem, alookup_aset_self]
      rfl
  | cons f rest =>
    simp only [observe, if_neg hi, if_true,
      get_after_set s now d i u t res ttl hd, hv, Bool.false_eq_true,
      if_false]
    refine ⟨by trivial, ?_, ?_⟩
    · rw [set_cache_caches, alookup_aset_self]
      rfl
    · rw [set_cache_mem, alookup_aset_self]
      rfl

/-- Witness for the amended C1 at a concrete state. -/
theorem claim_C1_invalid_selector_miss_no_eviction_witness :
    ((0 : Int) < 100) ∧
    (validate_cached_xpath (fun _ => none) resW.selector = false) ∧
    (observe (0 + 0) (some "i") "u" none true 100 (fun _ => none)
        [⟨"y", "fresh", none, none, none⟩]
        (set_cache 0 "i" "u" resW none initial_cache)).1 =
      [⟨"y", "fresh", none, none, none⟩] :=
  ⟨by decide, by decide,
    (claim_C1_invalid_selector_miss_no_eviction initial_cache 0 0 "i" "u"
      none resW 100 (fun _ => none) [⟨"y", "fresh", none, none, none⟩]
      (by decide) (by decide) (by decide)).1⟩

/-- C8 evaluation at the failing input: store an entry (hit count 0), then
perform one valid lookup of the same triple within TTL.  The lookup is a
hit, and the stored entry ends with `hit_count = 2`, not `1`: the in-memory
map and the durable map hold the same dict object, so
`_update_cache_stats` increments it once through each map.  (`last_used`
is set to the lookup time, and no other field changes.) -/
theorem claim_C8_hit_count_double_increment :
    ((heapGet (set_cache 0 "i" "u" resW none initial_cache).heap 0).map
        (fun it => it.hit_count) = some 0) ∧
    ((get_cached_result 5 "i" "u" none 100
        (set_cache 0 "i" "u" resW none initial_cache)).1.isSome = true) ∧
    ((heapGet (get_cached_result 5 "i" "u" none 100
        (set_cache 0 "i" "u" resW none initial_cache)).2.heap 0).map
        (fun it => it.hit_count) = some 2) ∧
    ((heapGet (get_cached_result 5 "i" "u" none 100
        (set_cache 0 "i" "u" resW none initial_cache)).2.heap 0).map
        (fun it => it.last_used) = some (some 5)) := by
  decide

/-- C9 counterexample: a valid hit mutates the durable map (the entry hit
count goes from 0 to 2) but does not rewrite the cache file — the file
still holds the snapshot with hit count 0 taken by the preceding
`set_cache`, so this mutating operation returns without persisting. -/
theorem claim_C9_stats_not_persisted_counterexample :
    ((get_cached_result 5 "i" "u" none 100
        (set_cache 0 "i" "u" resW none initial_cache)).2.file =
      (set_cache 0 "i" "u" resW none initial_cache).file) ∧
    ((alookup ((set_cache 0 "i" "u" resW none initial_cache).file.getD [])
        (_generate_cache_key "i" "u" none)).map (fun it => it.hit_count) =
      some 0) ∧
    ((heapGet (get_cached_result 5 "i" "u" none 100
        (set_cache 0 "i" "u" resW none initial_cache)).2.heap 0).map
        (fun it => it.hit_count) = some 2) := by
  decide

/-- The durable file reflects the current durable map. -/
def savedState (s : StagehandCache) : Prop :=
  s.file = some (cachesSnapshot s)

theorem savedState_save (s : StagehandCache) : savedState (_save_cache s) :=
  rfl

/-- A positive removal count selects the saving branch of `clear_cache`. -/
theorem save_if_pos (c : Nat) (s1 : StagehandCache) :
    0 < (if c > 0 then (c, _save_cache s1) else (c, s1)).1 →
    savedState (if c > 0 then (c, _save_cache s1) else (c, s1)).2 := by
  split
  · intro _
    exact savedState_save _
  · intro h
    simp only at h
    omega

/-- C9 amended: storing a new entry, evicting an expired entry during
lookup, and clearing all rewrite the cache file before returning; but the
hit-count/last-used update performed on a valid hit does not trigger a
save — the file is left exactly as it was, and those changes only become
durable through a later saving mutation. -/
theorem claim_C9_save_discipline :
    (∀ (now : Int) (i u : String) (res : ObserveResult) (t : Option String)
        (s : StagehandCache), savedState (set_cache now i u res t s)) ∧
    (∀ (now ttl : Int) (i u : String) (t : Option String)
        (s : StagehandCache) (a : Addr) (item : CacheItem),
      alookup s._memory_cache (_generate_cache_key i u t) = none →
      alookup s.caches (_generate_cache_key i u t) = some a →
      heapGet s.heap a = some item →
      _is_cache_valid now item ttl = false →
      get_cached_result now i u t ttl s =
        (none, _save_cache
          { s with caches := aerase s.caches (_generate_cache_key i u t) }) ∧
      savedState (get_cached_result now i u t ttl s).2) ∧
    (∀ (now ttl : Int) (expired_only : Bool) (s : StagehandCache),
      0 < (clear_cache now expired_only ttl s).1 →
      savedState (clear_cache now expired_only ttl s).2) ∧
    (∀ (now : Int) (k : String) (hit : Bool) (s : StagehandCache),
      (_update_cache_stats now k hit s).file = s.file) := by
  refine ⟨?_, ?_, ?_, ?_⟩
  · intro now i u res t s
    exact savedState_save _
  · intro now ttl i u t s a item hm hc hg hvalid
    have heq : get_cached_result now i u t ttl s =
        (none, _save_cache
          { s with
            caches := aerase s.caches (_generate_cache_key i u t) }) := by
      simp only [get_cached_result, hm, hc, hg, hvalid, Bool.false_eq_true,
        if_false]
    exact ⟨heq, by rw [heq]; exact savedState_save _⟩
  · intro now ttl expired_only s
    unfold clear_cache
    split
    · exact save_if_pos _ _
    · exact save_if_pos _ _
  · intro now k hit s
    exact update_stats_file now k hit s

/-- Witness for the amended C9 at concrete states: a store saves, an
expired-entry eviction saves, a clear-all saves. -/
theorem claim_C9_save_discipline_witness :
    savedState (set_cache 0 "i" "u" resW none initial_cache) ∧
    (alookup
        (StagehandCache.mk [itemW] []
          [(_generate_cache_key "i" "u" none, 0)] none)._memory_cache
        (_generate_cache_key "i" "u" none) = none) ∧
    savedState
      (get_cached_result 300 "i" "u" none 100
        (StagehandCache.mk [itemW] []
          [(_generate_cache_key "i" "u" none, 0)] none)).2 ∧
    (0 < (clear_cache 0 false 100
      (set_cache 0 "i" "u" resW none initial_cache)).1) ∧
    savedState (clear_cache 0 false 100
      (set_cache 0 "i" "u" resW none initial_cache)).2 :=
  ⟨claim_C9_save_discipline.1 0 "i" "u" resW none initial_cache,
    rfl,
    (claim_C9_save_discipline.2.1 300 100 "i" "u" none
      (StagehandCache.mk [itemW] []
        [(_generate_cache_key "i" "u" none, 0)] none) 0 itemW
      rfl (by simp [alookup]) rfl (by decide)).2,
    by decide,
    claim_C9_save_discipline.2.2.1 0 100 false
      (set_cache 0 "i" "u" resW none initial_cache) (by decide)⟩

/-- Unfolding of the merge loop when the imported key is already present
locally. -/
theorem merge_cons_present (k0 : String) (v0 : CacheItem)
    (rest : List (String × CacheItem)) (s : StagehandCache)
    (h : (alookup s.caches k0).isSome = true) :
    merge_imported ((k0, v0) :: rest) s = merge_imported rest s := by
  simp [merge_imported, h]

/-- Unfolding of the merge loop when the imported key is absent locally. -/
theorem merge_cons_absent (k0 : String) (v0 : CacheItem)
    (rest : List (String × CacheItem)) (s : StagehandCache)
    (h : (alookup s.caches k0).isSome = false) :
    merge_imported ((k0, v0) :: rest) s =
      ((merge_imported rest { s with
          heap := s.heap ++ [v0]
          caches := aset s.caches k0 s.heap.length }).1 + 1,
        (merge_imported rest { s with
          heap := s.heap ++ [v0]
          caches := aset s.caches k0 s.heap.length }).2) := by
  cases hrec : merge_imported rest { s with
      heap := s.heap ++ [v0]
      caches := aset s.caches k0 s.heap.length } with
  | mk c s2 => simp [merge_imported, h, hrec]

/-- The merge loop of `import_cache`: with pairwise-distinct imported keys
(a parsed JSON dict cannot repeat keys) it adds exactly the entries whose
keys are absent locally, counts them, and leaves every pre-existing entry
untouched. -/
theorem merge_imported_spec (imported : List (String × CacheItem)) :
    ∀ (s : StagehandCache), (imported.map Prod.fst).Nodup →
    (merge_imported imported s).1 =
      (imported.filter (fun kv => (alookup s.caches kv.1).isNone)).length ∧
    (∀ k, (alookup s.caches k).isSome →
      alookup (merge_imported imported s).2.caches k =
        alookup s.caches k) ∧
    (∀ a, a < s.heap.length →
      heapGet (merge_imported imported s).2.heap a = heapGet s.heap a) ∧
    (∀ kv ∈ imported, (alookup s.caches kv.1).isNone →
      (alookup (merge_imported imported s).2.caches kv.1).isSome = true) := by
  induction imported with
  | nil =>
    intro s _
    refine ⟨rfl, fun k _ => rfl, fun a _ => rfl, fun kv hkv => absurd hkv
      (List.not_mem_nil kv)⟩
  | cons kv0 rest ih =>
    intro s hnodup
    obtain ⟨k0, v0⟩ := kv0
    simp only [List.map_cons, List.nodup_cons] at hnodup
    obtain ⟨hk0, hrest⟩ := hnodup
    by_cases hpres : (alookup s.caches k0).isSome
    · obtain ⟨hcount, hkeep, hheap, hnew⟩ := ih s hrest
      rw [merge_cons_present k0 v0 rest s hpres]
      refine ⟨?_, hkeep, hheap, ?_⟩
      · rw [hcount, List.filter_cons]
        obtain ⟨w, hw⟩ := Option.isSome_iff_exists.mp hpres
        simp [hw]
      · intro kv hkv habsent
        rcases List.mem_cons.mp hkv with hkv0 | hkvr
        · subst hkv0
          simp only [Option.isNone_iff_eq_none] at habsent
          rw [habsent] at hpres
          simp at hpres
        · exact hnew kv hkvr habsent
    · have habsent0 : alookup s.caches k0 = none := by
        simpa [Option.isNone_iff_eq_none] using hpres
      have habs2 : (alookup s.caches k0).isSome = false := by
        rw [habsent0]
        rfl
      set s1 : StagehandCache := { s with
        heap := s.heap ++ [v0]
        caches := aset s.caches k0 s.heap.length } with hs1
      have hmerge := merge_cons_absent k0 v0 rest s habs2
      rw [← hs1] at hmerge
      obtain ⟨hcount, hkeep, hheap, hnew⟩ := ih s1 hrest
      have hsame : ∀ kv ∈ rest,
          alookup s1.caches kv.1 = alookup s.caches kv.1 := by
        intro kv hkv
        have hne : kv.1 ≠ k0 := by
          intro hh
          exact hk0 (hh ▸ List.mem_map_of_mem Prod.fst hkv)
        exact alookup_aset_ne s.caches k0 kv.1 s.heap.length hne
      rw [hmerge]
      refine ⟨?_, ?_, ?_, ?_⟩
      · rw [hcount, List.filter_cons]
        have hfilter : rest.filter
              (fun kv => (alookup s1.caches kv.1).isNone) =
            rest.filter (fun kv => (alookup s.caches kv.1).isNone) :=
          List.filter_congr (fun kv hkv => by rw [hsame kv hkv])
        simp [habsent0, hfilter, Nat.add_comm]
      · intro k hk
        have hne : k ≠ k0 := by
          intro hh
          rw [hh, habsent0] at hk
          simp at hk
        have h1 : alookup s1.caches k = alookup s.caches k :=
          alookup_aset_ne s.caches k0 k s.heap.length hne
        rw [hkeep k (by rw [h1]; exact hk), h1]
      · intro a ha
        have ha1 : a < s1.heap.length := by
          simp only [hs1, List.length_append, List.length_cons,
            List.length_nil]
          omega
        rw [hheap a ha1]
        exact heapGet_append_lt s.heap [v0] a ha
      · intro kv hkv habsent
        rcases List.mem_cons.mp hkv with hkv0 | hkvr
        · have h1 : alookup s1.caches kv.1 = some s.heap.length := by
            rw [hkv0]
            exact alookup_aset_self s.caches k0 s.heap.length
          rw [hkeep kv.1 (by rw [h1]; rfl), h1]
          rfl
        · have h1 : alookup s1.caches kv.1 = alookup s.caches kv.1 :=
            hsame kv hkvr
          exact hnew kv hkvr (by rw [h1]; exact habsent)

/-- C6: importing a parsed cache file adds exactly the imported entries
whose keys are absent locally and returns that count; every entry already
present locally keeps its value (local authority), and every absent
imported key is present after the merge. -/
theorem claim_C6_import_merge_policy (imported : List (String × CacheItem))
    (s : StagehandCache) (hnodup : (imported.map Prod.fst).Nodup) :
    (import_cache (some imported) s).1 =
      (imported.filter (fun kv => (alookup s.caches kv.1).isNone)).length ∧
    (∀ k, (alookup s.caches k).isSome →
      alookup (import_cache (some imported) s).2.caches k =
        alookup s.caches k) ∧
    (∀ a, a < s.heap.length →
      heapGet (import_cache (some imported) s).2.heap a = heapGet s.heap a) ∧
    (∀ kv ∈ imported, (alookup s.caches kv.1).isNone →
      (alookup (import_cache (some imported) s).2.caches kv.1).isSome
        = true) := by
  obtain ⟨hcount, hkeep, hheap, hnew⟩ := merge_imported_spec imported s hnodup
  have himp : import_cache (some imported) s =
      ((merge_imported imported s).1,
        _save_cache (merge_imported imported s).2) := by
    simp only [import_cache]
  rw [himp]
  exact ⟨hcount, hkeep, hheap, hnew⟩

/-- Witness for C6: importing one key already present locally (with
different field values) and one new key merges exactly one entry and
leaves the local entry unchanged. -/
theorem claim_C6_import_merge_policy_witness :
    ((["k1", "k2"] : List String).Nodup) ∧
    (import_cache (some [("k1", itemW), ("k2", set_cache_item 7 "j" "v" resW none)])
        (StagehandCache.mk [set_cache_item 0 "i" "u" resW none] []
          [("k1", 0)] none)).1 = 1 ∧
    alookup (import_cache
        (some [("k1", itemW), ("k2", set_cache_item 7 "j" "v" resW none)])
        (StagehandCache.mk [set_cache_item 0 "i" "u" resW none] []
          [("k1", 0)] none)).2.caches "k1" = some 0 ∧
    heapGet (import_cache
        (some [("k1", itemW), ("k2", set_cache_item 7 "j" "v" resW none)])
        (StagehandCache.mk [set_cache_item 0 "i" "u" resW none] []
          [("k1", 0)] none)).2.heap 0 =
      some (set_cache_item 0 "i" "u" resW none) :=
  have h := claim_C6_import_merge_policy
    [("k1", itemW), ("k2", set_cache_item 7 "j" "v" resW none)]
    (StagehandCache.mk [set_cache_item 0 "i" "u" resW none] []
      [("k1", 0)] none) (by decide)
  ⟨by decide, h.1.trans (by decide), (h.2.1 "k1" rfl).trans (by decide),
    h.2.2.1 0 (by decide)⟩

/-- An imported entry missing a required field: its `created_at` is absent
or unparseable (`none`), so no freshness check can ever succeed on it. -/
def malformedItemW : CacheItem :=
  { instruction := ""
    page_url := ""
    page_title := ""
    result := { selector := "", description := "", backend_node_id := none,
                method := none, arguments := none }
    created_at := none
    last_used := none
    hit_count := 0 }

/-- C7 counterexample: importing a file with one malformed entry (missing
`created_at`) under a key absent locally merges it anyway and counts it —
the import loop performs no per-entry validation, contradicting the claim
that malformed entries are skipped and not counted. -/
theorem claim_C7_malformed_entry_merged_counterexample :
    malformedItemW.created_at = none ∧
    (import_cache (some [("k", malformedItemW)]) initial_cache).1 = 1 ∧
    (alookup (import_cache (some [("k", malformedItemW)])
        initial_cache).2.caches "k").isSome = true := by
  decide

/-- C7 amended: the import loop validates nothing per entry — every
imported entry under a key absent locally is merged verbatim (whatever its
field values) and counted; only a malformed import file as a whole
(missing file or JSON parse failure) aborts the import, with no entries
merged and no save. -/
theorem claim_C7_import_no_per_entry_validation (s : StagehandCache)
    (k : String) (v : CacheItem)
    (habs : (alookup s.caches k).isNone = true) :
    import_cache (some [(k, v)]) s =
      (1, _save_cache { s with
        heap := s.heap ++ [v]
        caches := aset s.caches k s.heap.length }) ∧
    (∀ s2 : StagehandCache, import_cache none s2 = (0, s2)) := by
  constructor
  · have habs2 : (alookup s.caches k).isSome = false := by
      cases hh : alookup s.caches k
      · rfl
      · rw [hh] at habs
        simp at habs
    simp [import_cache, merge_imported, habs2]
  · intro s2
    rfl

/-- Witness for the amended C7: the malformed entry of the counterexample
state is merged verbatim, and a failed file parse merges nothing. -/
theorem claim_C7_import_no_per_entry_validation_witness :
    ((alookup initial_cache.caches "k").isNone = true) ∧
    import_cache (some [("k", malformedItemW)]) initial_cache =
      (1, _save_cache { initial_cache with
        heap := initial_cache.heap ++ [malformedItemW]
        caches := aset initial_cache.caches "k"
          initial_cache.heap.length }) ∧
    import_cache none initial_cache = (0, initial_cache) :=
  have h := claim_C7_import_no_per_entry_validation initial_cache "k"
    malformedItemW (by decide)
  ⟨by decide, h.1, h.2 initial_cache⟩

end StagehandSpec
